import Mathlib

/-
  Verification development for the free-agents repository: an agent gateway
  (invoke pipeline, registry) with a Next.js marketplace frontend.
  Frontend code is embedded from src/frontend; the backend pipeline and
  registry, whose code is not in the source tree, are modelled from spec.md.
-/

namespace FreeAgents

/-! JavaScript string primitives, embedded over List Char so that they
    compute by kernel reduction.  These model the ASCII behaviour of the
    String methods used by the frontend code. -/

/-- Whitespace characters removed by String.prototype.trim (ASCII subset). -/
def isWsChar (c : Char) : Bool :=
  c = ' ' || c = '\t' || c = '\n' || c = '\r'

/-- Embeds JavaScript s.trim(): drop whitespace from both ends. -/
def jsTrim (s : String) : String :=
  ⟨((s.data.dropWhile isWsChar).reverse.dropWhile isWsChar).reverse⟩

/-- Helper for jsSplit: accumulate the current chunk in reverse. -/
def jsSplitAux (sep : Char) : List Char → List Char → List (List Char)
  | [], acc => [acc.reverse]
  | c :: cs, acc =>
      if c = sep then acc.reverse :: jsSplitAux sep cs []
      else jsSplitAux sep cs (c :: acc)

/-- Embeds JavaScript s.split(sep) for a one-character separator. -/
def jsSplit (s : String) (sep : Char) : List String :=
  (jsSplitAux sep s.data []).map (fun cs => ⟨cs⟩)

/-- ASCII lower-casing of one character. -/
def jsCharLower (c : Char) : Char :=
  if 65 ≤ c.toNat && c.toNat ≤ 90 then Char.ofNat (c.toNat + 32) else c

/-- Embeds JavaScript s.toLowerCase() on ASCII strings. -/
def jsToLower (s : String) : String :=
  ⟨s.data.map jsCharLower⟩

/-- Boolean list-prefix test. -/
def isPrefixList : List Char → List Char → Bool
  | [], _ => true
  | _ :: _, [] => false
  | a :: as, b :: bs => a = b && isPrefixList as bs

/-- Boolean substring test on character lists. -/
def containsList (needle : List Char) : List Char → Bool
  | [] => isPrefixList needle []
  | c :: t => isPrefixList needle (c :: t) || containsList needle t

/-- Embeds JavaScript hay.includes(needle). -/
def jsIncludes (hay needle : String) : Bool :=
  containsList needle.data hay.data

/-- Test for the regular expression ^\d+$ used by the upload form. -/
def isDigits (s : String) : Bool :=
  !s.data.isEmpty && s.data.all (fun c => '0' ≤ c && c ≤ '9')

/-- Decimal value of an all-digit string (JavaScript Number on such input). -/
def natOfDigits (s : String) : Nat :=
  s.data.foldl (fun n c => n * 10 + (c.toNat - 48)) 0

/-! A model of JSON values as produced by the frontend.  JavaScript numbers
    that come from Number(...) applied to arbitrary user input are either an
    integer or NaN in the cases this development needs; theorems quantify
    over the Number function where its exact value does not matter. -/

/-- Result of a JavaScript Number(...) coercion in this model. -/
inductive JsNum where
  | int (n : Int)
  | nan
deriving DecidableEq, Repr

/-- JSON values; objects keep field insertion order as JavaScript does. -/
inductive Json where
  | null
  | bool (b : Bool)
  | num (n : JsNum)
  | str (s : String)
  | arr (elems : List Json)
  | obj (fields : List (String × Json))

/-- Lookup of a top-level object field by key; none on non-objects. -/
def Json.lookup? (j : Json) (k : String) : Option Json :=
  match j with
  | .obj fields => fields.lookup k
  | _ => none

/-! Upload page helpers, embedded from src/frontend/app/upload/page.tsx. -/

/-- Embeds bumpPatchVersion: split on ".", trim each part, require exactly
    three all-digit parts, and increment the patch component. -/
def bumpPatchVersion (value : String) : String :=
  let parts := (jsSplit value '.').map jsTrim
  match parts with
  | [major, minor, patch] =>
      if isDigits major && isDigits minor && isDigits patch then
        major ++ "." ++ minor ++ "." ++ toString (natOfDigits patch + 1)
      else ""
  | _ => ""

/-- Embeds the edit-mode test of UploadAgentPage: the page enters edit mode
    exactly when the query has edit=1 and a non-empty id parameter
    (searchParams.get returns none when the parameter is absent). -/
def editMode (editParam idParam : Option String) : Bool :=
  (editParam = some "1") && !(idParam.getD "" = "")

/-- Embeds the disabled prop of the Agent ID input, which is the isEditing
    state set by the edit-mode effect. -/
def agentIdInputDisabled (isEditing : Bool) : Bool :=
  isEditing

/-- Embeds the version prefill of the edit-mode effect: bump the patch of the
    loaded version, falling back to the loaded version when the bump is
    empty. -/
def initialEditVersion (dataVersion : String) : String :=
  let bumped := bumpPatchVersion dataVersion
  if bumped = "" then dataVersion else bumped

/-! The upload form state and the handleSubmit flow, embedded from
    src/frontend/app/upload/page.tsx. -/

/-- State of the upload form at submission time: the raw strings of each
    input plus the supports-memory checkbox. -/
structure UploadForm where
  agentId : String
  version : String
  name : String
  description : String
  primitive : String
  tags : String
  creditName : String
  creditUrl : String
  prompt : String
  inputSchema : String
  outputSchema : String
  supportsMemory : Bool
  memoryMode : String
  memoryMaxMessages : String
  memoryMaxChars : String

/-- Embeds the tags list computation: split on commas, trim each entry, and
    drop the empty ones. -/
def tagsList (tags : String) : List String :=
  ((jsSplit tags ',').map jsTrim).filter (fun t => !(t = ""))

/-- Embeds the missing-required-fields scan of handleSubmit, in source
    order; a field is missing when it is blank after trimming. -/
def missingFields (f : UploadForm) : List String :=
  (if jsTrim f.agentId = "" then ["Agent ID"] else []) ++
  (if jsTrim f.version = "" then ["Version"] else []) ++
  (if jsTrim f.name = "" then ["Name"] else []) ++
  (if jsTrim f.description = "" then ["Description"] else []) ++
  (if jsTrim f.primitive = "" then ["Primitive"] else []) ++
  (if jsTrim f.creditName = "" then ["Created by"] else []) ++
  (if jsTrim f.prompt = "" then ["Prompt"] else []) ++
  (if jsTrim f.inputSchema = "" then ["Input schema"] else []) ++
  (if jsTrim f.outputSchema = "" then ["Output schema"] else [])

/-- Embeds the JavaScript expression s or-else an empty-object literal, fed
    to JSON.parse for each schema textarea. -/
def jsonOrEmptyObj (s : String) : String :=
  if s = "" then "\x7b\x7d" else s

/-- Embeds the memory_policy object built when the supports-memory box is
    checked; num stands for the JavaScript Number coercion on strings, and
    an empty input falls back to the numeric literal before Number sees
    it. -/
def memoryPolicyJson (num : String → JsNum) (f : UploadForm) : Json :=
  .obj
    [ ("mode", .str (if jsTrim f.memoryMode = "" then "last_n" else jsTrim f.memoryMode)),
      ("max_messages", .num (if f.memoryMaxMessages = "" then .int 10 else num f.memoryMaxMessages)),
      ("max_chars", .num (if f.memoryMaxChars = "" then .int 8000 else num f.memoryMaxChars)) ]

/-- Embeds the spec object assembled by handleSubmit, with the parsed
    schemas passed in; undefined-valued keys (an empty credit url) are
    dropped as JSON.stringify does, and conditional keys appear in the
    insertion order of the source. -/
def specJson (num : String → JsNum) (f : UploadForm) (pin pout : Json) : Json :=
  .obj
    ([ ("id", .str (jsTrim f.agentId)),
       ("version", .str (jsTrim f.version)),
       ("name", .str (jsTrim f.name)),
       ("description", .str (jsTrim f.description)),
       ("primitive", .str f.primitive),
       ("prompt", .str (jsTrim f.prompt)),
       ("input_schema", pin),
       ("output_schema", pout),
       ("supports_memory", .bool f.supportsMemory) ] ++
     (if (tagsList f.tags).isEmpty then []
      else [("tags", .arr ((tagsList f.tags).map .str))]) ++
     [ ("credits", .obj
         ([("name", .str (jsTrim f.creditName))] ++
          (if jsTrim f.creditUrl = "" then []
           else [("url", .str (jsTrim f.creditUrl))]))) ] ++
     (if f.supportsMemory then [("memory_policy", memoryPolicyJson num f)] else []))

/-- An HTTP request issued through fetch by the frontend. -/
structure FetchRequest where
  url : String
  method : String
  headers : List (String × String)
  body : Json

/-- The gateway response to the register call, as handleSubmit reads it:
    res.ok, res.status, the truthiness of data.ok, the agent_id and version
    fields, and the optional error message. -/
structure RegisterResponse where
  resOk : Bool
  httpStatus : Nat
  dataOk : Bool
  agent_id : String
  version : String
  errorMessage : Option String

/-- Status of the upload form after submission. -/
inductive FormStatus where
  | idle
  | loading
  | ok
  | error
deriving DecidableEq, Repr

/-- Observable outcome of one handleSubmit run: the gateway requests issued
    and the final status banner state. -/
structure SubmitResult where
  requests : List FetchRequest
  status : FormStatus
  statusMessage : String
  fieldErrors : List String

/-- Embeds handleSubmit from src/frontend/app/upload/page.tsx: the sign-in
    gate, the required-field scan, the JSON.parse of both schemas, the token
    check, the single POST to the register endpoint, and the handling of the
    response.  parse stands for JSON.parse (none on a parse exception), num
    for the Number coercion, and token for the awaited Clerk token. -/
def handleSubmit (gatewayUrl : String) (num : String → JsNum)
    (parse : String → Option Json) (signedIn : Bool) (token : Option String)
    (f : UploadForm) (resp : RegisterResponse) : SubmitResult :=
  if !signedIn then
    ⟨[], .error, "Please sign in to upload an agent.", []⟩
  else
    let missing := missingFields f
    if !missing.isEmpty then
      ⟨[], .error, "Please fill all required fields.", missing⟩
    else
      match parse (jsonOrEmptyObj f.inputSchema), parse (jsonOrEmptyObj f.outputSchema) with
      | some pin, some pout =>
          (match token with
           | none => ⟨[], .error, "Missing session token. Please sign in again.", []⟩
           | some t =>
               let req : FetchRequest :=
                 { url := gatewayUrl ++ "/agents/register"
                   method := "POST"
                   headers :=
                     [ ("Content-Type", "application/json"),
                       ("Authorization", "Bearer " ++ t) ]
                   body := .obj [("spec", specJson num f pin pout)] }
               if resp.resOk && resp.dataOk then
                 ⟨[req], .ok, "Registered " ++ resp.agent_id ++ "@" ++ resp.version, []⟩
               else
                 ⟨[req], .error,
                   resp.errorMessage.getD ("Failed (" ++ toString resp.httpStatus ++ ")"), []⟩)
      | _, _ => ⟨[], .error, "Input/Output schema must be valid JSON.", []⟩

/-! The marketplace page, embedded from src/frontend/app/page.tsx. -/

/-- Embeds the URL of the list request issued by loadAgents: the owned list
    with its optional include_archived flag when the By-you toggle is on,
    and the public catalog request otherwise. -/
def listRequestUrl (gatewayUrl : String) (showMine showArchived : Bool) : String :=
  if showMine then
    gatewayUrl ++ "/agents/mine" ++ (if showArchived then "?include_archived=true" else "")
  else
    gatewayUrl ++ "/agents?latest_only=true"

/-- The primitive enum of an agent spec. -/
inductive Primitive where
  | transform
  | extract
  | classify
deriving DecidableEq, Repr

/-- The primitive filter buttons: All or one specific primitive. -/
inductive PrimitiveFilter where
  | all
  | only (p : Primitive)
deriving DecidableEq, Repr

/-- The fields of an AgentSummary read by the marketplace filter; name,
    description and tags are optional because the filter code guards each
    with a fallback to an empty value. -/
structure AgentSummary where
  id : String
  name : Option String
  description : Option String
  primitive : Primitive
  tags : Option (List String)
deriving DecidableEq, Repr

/-- Embeds the matchesSearch predicate of the marketplace filter: the
    lower-cased name, description, or some tag contains the lower-cased
    query. -/
def matchesSearch (q : String) (a : AgentSummary) : Bool :=
  jsIncludes (jsToLower (a.name.getD "")) (jsToLower q) ||
  jsIncludes (jsToLower (a.description.getD "")) (jsToLower q) ||
  (a.tags.getD []).any (fun t => jsIncludes (jsToLower t) (jsToLower q))

/-- Embeds the matchesPrimitive predicate: All passes everything, a specific
    selection requires equality. -/
def matchesPrimitive (sel : PrimitiveFilter) (a : AgentSummary) : Bool :=
  match sel with
  | .all => true
  | .only p => a.primitive = p

/-- Embeds filteredAgents: filter the loaded list by search and primitive. -/
def filteredAgents (agents : List AgentSummary) (q : String)
    (sel : PrimitiveFilter) : List AgentSummary :=
  agents.filter (fun a => matchesSearch q a && matchesPrimitive sel a)

/-! The backend invoke pipeline, registry store and streaming stub.  Their
    code is not under src/ (only the README, scripts and the frontend
    callers are), so they are modelled from spec.md. -/

/-- Outcome of one invoke request: a validated output or an error code with
    its HTTP status. -/
inductive InvokeOutcome (α : Type) where
  | success (output : α)
  | failure (code : String) (httpStatus : Nat)
deriving DecidableEq, Repr

/-- Modelled from the spec: the invoke pipeline of section 4.3 (the backend
    app code is not under src/).  Stages run in strict sequence: resolve
    (AGENT_NOT_FOUND 404), auth (UNAUTHORIZED 401), body parse
    (MALFORMED_REQUEST 400), input validation (INPUT_VALIDATION_ERROR 422),
    provider call (none means a provider failure, INTERNAL_ERROR 500, not
    retried), output validation with exactly one repair call, and
    OUTPUT_VALIDATION_ERROR 422 when the repair output is also invalid.
    The second component counts provider invocations. -/
def invokePipeline {α : Type} (resolved authRequired tokenOk bodyParses inputValid : Bool)
    (validOut : α → Bool) (provider : Nat → Option α) : InvokeOutcome α × Nat :=
  if !resolved then (.failure "AGENT_NOT_FOUND" 404, 0)
  else if authRequired && !tokenOk then (.failure "UNAUTHORIZED" 401, 0)
  else if !bodyParses then (.failure "MALFORMED_REQUEST" 400, 0)
  else if !inputValid then (.failure "INPUT_VALIDATION_ERROR" 422, 0)
  else
    match provider 0 with
    | none => (.failure "INTERNAL_ERROR" 500, 1)
    | some first =>
        if validOut first then (.success first, 1)
        else
          match provider 1 with
          | none => (.failure "INTERNAL_ERROR" 500, 2)
          | some second =>
              if validOut second then (.success second, 2)
              else (.failure "OUTPUT_VALIDATION_ERROR" 422, 2)

/-- A stored agent spec record, reduced to the fields the registry queries
    use: identity, the monotonic insertion timestamp, and the archived
    flag. -/
structure StoredSpec where
  id : String
  version : String
  created_at : Nat
  archived : Bool
deriving DecidableEq, Repr

/-- Modelled from the spec: register of section 4.2 (the backend store code
    is not under src/).  Insert-if-absent on the (id, version) pair; the
    store length serves as the monotonic insertion timestamp; none signals
    AGENT_VERSION_EXISTS. -/
def register (store : List StoredSpec) (id version : String) :
    Option (List StoredSpec) :=
  if store.any (fun s => s.id = id && s.version = version) then none
  else some (store ++ [⟨id, version, store.length, false⟩])

/-- Keeps the record with the larger created_at, seeded with none. -/
def pickLater (acc : Option StoredSpec) (s : StoredSpec) : Option StoredSpec :=
  match acc with
  | none => some s
  | some b => if b.created_at < s.created_at then some s else some b

/-- Modelled from the spec: latest-by-creation-time resolution of sections 3
    and 4.2 — the spec with the maximum created_at among the non-archived
    versions of the id, not semantic-version ordering. -/
def latestSpec (store : List StoredSpec) (id : String) : Option StoredSpec :=
  (store.filter (fun s => s.id = id && !s.archived)).foldl pickLater none

/-- Modelled from the spec: get of section 4.2 — the pinned version when one
    is supplied, otherwise the latest by created_at. -/
def getSpec (store : List StoredSpec) (id : String) (version : Option String) :
    Option StoredSpec :=
  match version with
  | some v => (store.filter (fun s => s.id = id && s.version = v)).head?
  | none => latestSpec store id

/-- First occurrence of each distinct id, in insertion order. -/
def distinctIds (store : List StoredSpec) : List String :=
  (store.map (fun s => s.id)).eraseDups

/-- Modelled from the spec: list with latest_only=true of section 4.2 — one
    entry per distinct id, each the latest non-archived version of its
    id. -/
def listLatestOnly (store : List StoredSpec) : List StoredSpec :=
  (distinctIds store).filterMap (latestSpec store)

/-- The meta block every envelope carries. -/
structure Meta where
  request_id : String
  agent : String
  version : String
deriving DecidableEq, Repr

/-- The error member of the standard error envelope. -/
structure ErrorBody where
  code : String
  message : String
deriving DecidableEq, Repr

/-- An error response: HTTP status plus the standard error envelope. -/
structure ErrorResponse where
  httpStatus : Nat
  error : ErrorBody
  meta : Meta
deriving DecidableEq, Repr

/-- Modelled from the spec: the streaming invoke stub of sections 4.3 and 6
    (the backend route code is not under src/).  Both POST /stream and
    POST /agents/(id)/stream always answer 501 NOT_IMPLEMENTED in the
    standard envelope, with request_id, agent and version in meta. -/
def streamEndpoint (requestId agent version : String) : ErrorResponse :=
  { httpStatus := 501
    error := { code := "NOT_IMPLEMENTED", message := "Streaming is not implemented." }
    meta := { request_id := requestId, agent := agent, version := version } }

/-- Registry contents after registering demo version 1.0.0 and then, later,
    demo version 0.9.9. -/
def demoStore : List StoredSpec :=
  (register ((register [] "demo" "1.0.0").getD []) "demo" "0.9.9").getD []

/-- A fully filled upload form used to exercise the submit flow. -/
def demoForm : UploadForm :=
  { agentId := "summarizer-pro"
    version := "1.0.0"
    name := "Summarizer Pro"
    description := "Summarizes text"
    primitive := "transform"
    tags := ""
    creditName := "dev"
    creditUrl := ""
    prompt := "Summarize."
    inputSchema := "x"
    outputSchema := "y"
    supportsMemory := false
    memoryMode := ""
    memoryMaxMessages := ""
    memoryMaxChars := "" }

/-- A successful register response for the demo form. -/
def demoResp : RegisterResponse :=
  { resOk := true
    httpStatus := 200
    dataOk := true
    agent_id := "summarizer-pro"
    version := "1.0.0"
    errorMessage := none }

/-! Helper lemmas. -/

/-- An empty needle is contained in every haystack. -/
theorem containsList_nil (l : List Char) : containsList [] l = true := by
  cases l with
  | nil => rfl
  | cons c t => simp [containsList, isPrefixList]

/-- Containment in the right part of an append. -/
theorem containsList_append_right (n a b : List Char)
    (h : containsList n b = true) : containsList n (a ++ b) = true := by
  induction a with
  | nil => simpa using h
  | cons c t ih => simp [containsList, ih]

/-- A some accumulator stays some through the fold. -/
theorem foldl_pickLater_isSome (l : List StoredSpec) :
    ∀ acc : Option StoredSpec, acc.isSome →
      (l.foldl pickLater acc).isSome := by
  induction l with
  | nil => intro acc h; simpa using h
  | cons s t ih =>
      intro acc _
      have hsome : (pickLater acc s).isSome := by
        cases acc with
        | none => rfl
        | some b => simp only [pickLater]; split <;> rfl
      exact ih (pickLater acc s) hsome

/-- A fold over a non-empty list yields some. -/
theorem foldl_pickLater_ne_nil (l : List StoredSpec) (hl : l ≠ []) :
    (l.foldl pickLater none).isSome := by
  cases l with
  | nil => exact absurd rfl hl
  | cons s t =>
      have : (pickLater none s).isSome := rfl
      simpa using foldl_pickLater_isSome t (pickLater none s) this

/-- The accumulator never beats the final result on created_at. -/
theorem foldl_pickLater_acc_le (l : List StoredSpec) :
    ∀ (b r : StoredSpec), l.foldl pickLater (some b) = some r →
      b.created_at ≤ r.created_at := by
  induction l with
  | nil =>
      intro b r h
      simp only [List.foldl_nil, Option.some.injEq] at h
      exact h ▸ Nat.le_refl _
  | cons s t ih =>
      intro b r h
      simp only [List.foldl_cons] at h
      by_cases hbs : b.created_at < s.created_at
      · have hp : pickLater (some b) s = some s := by simp [pickLater, hbs]
        rw [hp] at h
        exact Nat.le_of_lt (Nat.lt_of_lt_of_le hbs (ih s r h))
      · have hp : pickLater (some b) s = some b := by simp [pickLater, hbs]
        rw [hp] at h
        exact ih b r h

/-- The fold result comes from the accumulator or the list. -/
theorem foldl_pickLater_mem (l : List StoredSpec) :
    ∀ (acc : Option StoredSpec) (r : StoredSpec),
      l.foldl pickLater acc = some r → acc = some r ∨ r ∈ l := by
  induction l with
  | nil =>
      intro acc r h
      exact Or.inl (by simpa using h)
  | cons s t ih =>
      intro acc r h
      simp only [List.foldl_cons] at h
      rcases ih (pickLater acc s) r h with hacc | hmem
      · cases acc with
        | none =>
            simp only [pickLater, Option.some.injEq] at hacc
            exact Or.inr (hacc ▸ List.mem_cons_self s t)
        | some b =>
            simp only [pickLater] at hacc
            split at hacc
            · simp only [Option.some.injEq] at hacc
              exact Or.inr (hacc ▸ List.mem_cons_self s t)
            · exact Or.inl hacc
      · exact Or.inr (List.mem_cons_of_mem s hmem)

/-- Every list element is bounded by the fold result on created_at. -/
theorem foldl_pickLater_le (l : List StoredSpec) :
    ∀ (acc : Option StoredSpec) (r : StoredSpec),
      l.foldl pickLater acc = some r →
      ∀ t ∈ l, t.created_at ≤ r.created_at := by
  induction l with
  | nil => intro acc r _ t ht; exact absurd ht (List.not_mem_nil t)
  | cons s rest ih =>
      intro acc r h t ht
      simp only [List.foldl_cons] at h
      rcases List.mem_cons.mp ht with hts | htrest
      · subst hts
        have hstep : (pickLater acc t).isSome ∧
            ∀ b, pickLater acc t = some b → t.created_at ≤ b.created_at := by
          cases acc with
          | none =>
              exact ⟨rfl, fun b hb => by
                simp only [pickLater, Option.some.injEq] at hb
                exact hb ▸ Nat.le_refl _⟩
          | some b0 =>
              constructor
              · simp only [pickLater]; split <;> rfl
              · intro b hb
                simp only [pickLater] at hb
                split at hb
                · simp only [Option.some.injEq] at hb
                  exact hb ▸ Nat.le_refl _
                · simp only [Option.some.injEq] at hb
                  subst hb
                  exact Nat.le_of_not_lt (by assumption)
        obtain ⟨hsome, hb⟩ := hstep
        obtain ⟨b, hbeq⟩ := Option.isSome_iff_exists.mp hsome
        have h1 : t.created_at ≤ b.created_at := hb b hbeq
        rw [hbeq] at h
        exact Nat.le_trans h1 (foldl_pickLater_acc_le rest b r h)
      · exact ih (pickLater acc s) r h t htrest

/-! Claim theorems. -/

/-- C1: for every invoke request the provider is called at most twice, and
    when both the initial output and the single repair output are invalid
    the request fails with OUTPUT_VALIDATION_ERROR (422) after exactly two
    provider calls, never a third. -/
theorem claim_C1_at_most_two_provider_calls {α : Type}
    (resolved authRequired tokenOk bodyParses inputValid : Bool)
    (validOut : α → Bool) (provider : Nat → Option α) :
    (invokePipeline resolved authRequired tokenOk bodyParses inputValid
        validOut provider).2 ≤ 2 ∧
    (∀ first second, resolved = true → (authRequired && !tokenOk) = false →
      bodyParses = true → inputValid = true →
      provider 0 = some first → provider 1 = some second →
      validOut first = false → validOut second = false →
      invokePipeline resolved authRequired tokenOk bodyParses inputValid
          validOut provider =
        (.failure "OUTPUT_VALIDATION_ERROR" 422, 2)) := by
  constructor
  · cases resolved <;> cases authRequired <;> cases tokenOk <;>
      cases bodyParses <;> cases inputValid <;>
      simp only [invokePipeline, Bool.not_true, Bool.not_false,
        Bool.true_and, Bool.false_and, if_true, if_false, ite_true, ite_false] <;>
      first
        | decide
        | (cases h0 : provider 0 with
           | none => simp
           | some first =>
               cases hv1 : validOut first with
               | true => simp [hv1]
               | false =>
                   cases h1 : provider 1 with
                   | none => simp [hv1]
                   | some second =>
                       cases hv2 : validOut second <;> simp [hv1, hv2])
  · intro first second hres hauth hbody hinput h0 h1 hv1 hv2
    subst hres hbody hinput
    simp [invokePipeline, hauth, h0, h1, hv1, hv2]

/-- C1 witness: a concrete run with an always-invalid output gives
    OUTPUT_VALIDATION_ERROR 422 after exactly two provider calls. -/
theorem claim_C1_witness :
    invokePipeline (α := Nat) true true true true true (fun _ => false)
        (fun _ => some 0) =
      (.failure "OUTPUT_VALIDATION_ERROR" 422, 2) :=
  (claim_C1_at_most_two_provider_calls true true true true true
      (fun _ => false) (fun _ => some 0)).2 0 0 rfl rfl rfl rfl rfl rfl rfl rfl

/-- C2: when an id has a non-archived version, latest resolution (get with
    version omitted) returns a stored non-archived spec of that id whose
    created_at bounds every other non-archived version of the id. -/
theorem claim_C2_latest_is_max_created_at (store : List StoredSpec) (id : String)
    (h : ∃ t ∈ store, t.id = id ∧ t.archived = false) :
    ∃ s, getSpec store id none = some s ∧ s ∈ store ∧ s.id = id ∧
      s.archived = false ∧
      ∀ t ∈ store, t.id = id → t.archived = false →
        t.created_at ≤ s.created_at := by
  obtain ⟨t, htmem, htid, htarch⟩ := h
  have htcand : t ∈ store.filter (fun s => s.id = id && !s.archived) :=
    List.mem_filter.mpr ⟨htmem, by simp [htid, htarch]⟩
  have hne : store.filter (fun s => s.id = id && !s.archived) ≠ [] :=
    List.ne_nil_of_mem htcand
  obtain ⟨s, hs⟩ := Option.isSome_iff_exists.mp (foldl_pickLater_ne_nil _ hne)
  refine ⟨s, hs, ?_, ?_, ?_, ?_⟩
  · rcases foldl_pickLater_mem _ none s hs with hnone | hmem
    · exact absurd hnone (by simp)
    · exact (List.mem_filter.mp hmem).1
  · rcases foldl_pickLater_mem _ none s hs with hnone | hmem
    · exact absurd hnone (by simp)
    · have := (List.mem_filter.mp hmem).2
      simp only [Bool.and_eq_true, decide_eq_true_eq, Bool.not_eq_true'] at this
      exact this.1
  · rcases foldl_pickLater_mem _ none s hs with hnone | hmem
    · exact absurd hnone (by simp)
    · have := (List.mem_filter.mp hmem).2
      simp only [Bool.and_eq_true, decide_eq_true_eq, Bool.not_eq_true'] at this
      exact this.2
  · intro u humem huid huarch
    have hucand : u ∈ store.filter (fun s => s.id = id && !s.archived) :=
      List.mem_filter.mpr ⟨humem, by simp [huid, huarch]⟩
    exact foldl_pickLater_le _ none s hs u hucand

/-- C2 witness: registering 1.0.0 and then 0.9.9 makes 0.9.9 the latest,
    despite the lower semantic version. -/
theorem claim_C2_witness :
    (∃ s, getSpec demoStore "demo" none = some s ∧ s ∈ demoStore ∧
        s.id = "demo" ∧ s.archived = false ∧
        ∀ t ∈ demoStore, t.id = "demo" → t.archived = false →
          t.created_at ≤ s.created_at) ∧
    getSpec demoStore "demo" none = some ⟨"demo", "0.9.9", 1, false⟩ :=
  ⟨claim_C2_latest_is_max_created_at demoStore "demo"
      ⟨⟨"demo", "1.0.0", 0, false⟩, by decide, by decide, by decide⟩,
    by decide⟩

/-- C3: the streaming invoke stub always answers 501 with error code
    NOT_IMPLEMENTED and a meta block carrying request_id, agent and
    version. -/
theorem claim_C3_stream_always_501 (requestId agent version : String) :
    (streamEndpoint requestId agent version).httpStatus = 501 ∧
    (streamEndpoint requestId agent version).error.code = "NOT_IMPLEMENTED" ∧
    (streamEndpoint requestId agent version).meta =
      { request_id := requestId, agent := agent, version := version } :=
  ⟨rfl, rfl, rfl⟩

/-- C3 witness: a concrete streaming request gets the full 501 envelope. -/
theorem claim_C3_witness :
    (streamEndpoint "req-1" "summarizer" "1.0.0").httpStatus = 501 ∧
    (streamEndpoint "req-1" "summarizer" "1.0.0").error.code = "NOT_IMPLEMENTED" ∧
    (streamEndpoint "req-1" "summarizer" "1.0.0").meta =
      { request_id := "req-1", agent := "summarizer", version := "1.0.0" } :=
  claim_C3_stream_always_501 "req-1" "summarizer" "1.0.0"

/-- C4: with the By-you toggle off, loadAgents requests exactly the
    latest-only public catalog URL, so the list request always carries
    latest_only=true. -/
theorem claim_C4_public_catalog_latest_only (gatewayUrl : String)
    (showArchived : Bool) :
    listRequestUrl gatewayUrl false showArchived =
      gatewayUrl ++ "/agents?latest_only=true" ∧
    jsIncludes (listRequestUrl gatewayUrl false showArchived)
      "latest_only=true" = true := by
  refine ⟨rfl, ?_⟩
  show containsList "latest_only=true".data
    (gatewayUrl ++ "/agents?latest_only=true").data = true
  have hdata : (gatewayUrl ++ "/agents?latest_only=true").data =
      gatewayUrl.data ++ "/agents?latest_only=true".data := rfl
  rw [hdata]
  exact containsList_append_right _ _ _ (by decide)

/-- C4 witness: the concrete public catalog request for the default gateway
    URL. -/
theorem claim_C4_witness :
    listRequestUrl "http://localhost:4280" false false =
      "http://localhost:4280" ++ "/agents?latest_only=true" :=
  (claim_C4_public_catalog_latest_only "http://localhost:4280" false).1

/-- C5: a signed-in submission that passes the client-side checks issues
    exactly one POST to the register endpoint with a bearer token and the
    body wrapping the spec object, and a response with res.ok and a truthy
    data.ok reports Registered agent_id at version. -/
theorem claim_C5_register_request (gatewayUrl : String) (num : String → JsNum)
    (parse : String → Option Json) (t : String) (f : UploadForm)
    (resp : RegisterResponse) (pin pout : Json)
    (hmiss : missingFields f = [])
    (hpin : parse (jsonOrEmptyObj f.inputSchema) = some pin)
    (hpout : parse (jsonOrEmptyObj f.outputSchema) = some pout)
    (hok : resp.resOk = true) (hdata : resp.dataOk = true) :
    handleSubmit gatewayUrl num parse true (some t) f resp =
      { requests :=
          [ { url := gatewayUrl ++ "/agents/register"
              method := "POST"
              headers :=
                [ ("Content-Type", "application/json"),
                  ("Authorization", "Bearer " ++ t) ]
              body := .obj [("spec", specJson num f pin pout)] } ]
        status := .ok
        statusMessage := "Registered " ++ resp.agent_id ++ "@" ++ resp.version
        fieldErrors := [] } := by
  simp [handleSubmit, hmiss, hpin, hpout, hok, hdata]

/-- C5 witness: the demo form and a successful response produce the single
    register POST and the success banner. -/
theorem claim_C5_witness :
    handleSubmit "http://localhost:4280" (fun _ => JsNum.nan)
        (fun _ => some (Json.obj [])) true (some "tok") demoForm demoResp =
      { requests :=
          [ { url := "http://localhost:4280" ++ "/agents/register"
              method := "POST"
              headers :=
                [ ("Content-Type", "application/json"),
                  ("Authorization", "Bearer " ++ "tok") ]
              body := .obj [("spec", specJson (fun _ => JsNum.nan) demoForm
                              (Json.obj []) (Json.obj []))] } ]
        status := .ok
        statusMessage := "Registered " ++ demoResp.agent_id ++ "@" ++ demoResp.version
        fieldErrors := [] } :=
  claim_C5_register_request "http://localhost:4280" (fun _ => JsNum.nan)
    (fun _ => some (Json.obj [])) "tok" demoForm demoResp (Json.obj []) (Json.obj [])
    (by decide) rfl rfl rfl rfl

/-- C6: the submitted spec object has a memory_policy field exactly when the
    supports-memory box is checked, and the field then holds the trimmed
    mode defaulting to last_n, and the Number coercions of the max-messages
    and max-chars inputs defaulting to 10 and 8000 on empty input. -/
theorem claim_C6_memory_policy_iff (num : String → JsNum) (f : UploadForm)
    (pin pout : Json) :
    (specJson num f pin pout).lookup? "memory_policy" =
      (if f.supportsMemory then
        some (.obj
          [ ("mode", .str (if jsTrim f.memoryMode = "" then "last_n"
                           else jsTrim f.memoryMode)),
            ("max_messages", .num (if f.memoryMaxMessages = "" then .int 10
                                   else num f.memoryMaxMessages)),
            ("max_chars", .num (if f.memoryMaxChars = "" then .int 8000
                                else num f.memoryMaxChars)) ])
      else none) := by
  cases hm : f.supportsMemory <;>
    cases htags : (tagsList f.tags).isEmpty <;>
      by_cases hurl : jsTrim f.creditUrl = "" <;>
        simp [specJson, Json.lookup?, memoryPolicyJson, List.lookup, hm, htags, hurl]

/-- C6 witness: the demo form leaves supports-memory off, so the submitted
    spec has no memory_policy field. -/
theorem claim_C6_witness :
    (specJson (fun _ => JsNum.nan) demoForm (Json.obj [])
        (Json.obj [])).lookup? "memory_policy" = none :=
  claim_C6_memory_policy_iff (fun _ => JsNum.nan) demoForm (Json.obj []) (Json.obj [])

/-- C7: with edit=1 and a non-empty id the page is in edit mode, the Agent
    ID input is disabled, and the version prefill is the patch bump of the
    loaded version when the bump is non-empty, the loaded version
    otherwise. -/
theorem claim_C7_edit_steers_to_new_version (idParam dataVersion : String)
    (hid : idParam ≠ "") :
    editMode (some "1") (some idParam) = true ∧
    agentIdInputDisabled (editMode (some "1") (some idParam)) = true ∧
    (bumpPatchVersion dataVersion ≠ "" →
      initialEditVersion dataVersion = bumpPatchVersion dataVersion) ∧
    (bumpPatchVersion dataVersion = "" →
      initialEditVersion dataVersion = dataVersion) := by
  have hedit : editMode (some "1") (some idParam) = true := by
    simp [editMode, hid]
  refine ⟨hedit, by simpa [agentIdInputDisabled] using hedit, ?_, ?_⟩
  · intro hne
    simp [initialEditVersion, hne]
  · intro hempty
    simp [initialEditVersion, hempty]

/-- C7 witness: editing id x at version 1.2.3 prefills version 1.2.4 with
    the id input disabled. -/
theorem claim_C7_witness :
    editMode (some "1") (some "x") = true ∧
    initialEditVersion "1.2.3" = "1.2.4" := by
  have h := claim_C7_edit_steers_to_new_version "x" "1.2.3" (by decide)
  refine ⟨h.1, ?_⟩
  rw [h.2.2.1 (by decide)]
  decide

/-- C8: bumpPatchVersion returns major.minor.(patch+1) on the trimmed parts
    when splitting on dots yields exactly three all-digit components, and
    the empty string on every other input. -/
theorem claim_C8_bumpPatchVersion_correct (s : String) :
    (∀ major minor patch, (jsSplit s '.').map jsTrim = [major, minor, patch] →
      isDigits major = true → isDigits minor = true → isDigits patch = true →
      bumpPatchVersion s =
        major ++ "." ++ minor ++ "." ++ toString (natOfDigits patch + 1)) ∧
    ((∀ major minor patch, (jsSplit s '.').map jsTrim = [major, minor, patch] →
        (isDigits major && isDigits minor && isDigits patch) = false) →
      bumpPatchVersion s = "") := by
  constructor
  · intro major minor patch hp ha hb hc
    simp [bumpPatchVersion, hp, ha, hb, hc]
  · intro hno
    cases hp : (jsSplit s '.').map jsTrim with
    | nil => simp [bumpPatchVersion, hp]
    | cons a t =>
        cases t with
        | nil => simp [bumpPatchVersion, hp]
        | cons b t2 =>
            cases t2 with
            | nil => simp [bumpPatchVersion, hp]
            | cons c t3 =>
                cases t3 with
                | nil => simp [bumpPatchVersion, hp, hno a b c hp]
                | cons d t4 => simp [bumpPatchVersion, hp]

/-- C8 witness: 1.2.3 bumps to 1.2.4, showing the positive branch on a
    concrete version string. -/
theorem claim_C8_witness : bumpPatchVersion "1.2.3" = "1.2.4" := by
  have h := (claim_C8_bumpPatchVersion_correct "1.2.3").1 "1" "2" "3"
    (by decide) rfl rfl rfl
  rw [h]
  decide

/-- C9: the marketplace filter keeps exactly the agents whose lower-cased
    name, description or some tag contains the lower-cased query and whose
    primitive matches the selection, preserves the original order, and with
    an empty query and All selected returns the loaded list unchanged. -/
theorem claim_C9_filteredAgents_correct (agents : List AgentSummary)
    (q : String) (sel : PrimitiveFilter) :
    (∀ a, a ∈ filteredAgents agents q sel ↔
      a ∈ agents ∧
      (jsIncludes (jsToLower (a.name.getD "")) (jsToLower q) = true ∨
       jsIncludes (jsToLower (a.description.getD "")) (jsToLower q) = true ∨
       ∃ t ∈ a.tags.getD [], jsIncludes (jsToLower t) (jsToLower q) = true) ∧
      (sel = .all ∨ sel = .only a.primitive)) ∧
    (filteredAgents agents q sel).Sublist agents ∧
    filteredAgents agents "" .all = agents := by
  refine ⟨?_, List.filter_sublist _, ?_⟩
  · intro a
    cases sel with
    | all =>
        simp [filteredAgents, List.mem_filter, matchesSearch, matchesPrimitive,
          and_assoc, or_assoc]
    | only p =>
        simp only [filteredAgents, List.mem_filter, matchesSearch,
          matchesPrimitive, Bool.and_eq_true, Bool.or_eq_true,
          List.any_eq_true, decide_eq_true_eq]
        constructor
        · rintro ⟨hmem, hsearch, hprim⟩
          exact ⟨hmem, or_assoc.mp hsearch, Or.inr (by rw [hprim])⟩
        · rintro ⟨hmem, hsearch, hall | honly⟩
          · exact absurd hall (by simp)
          · refine ⟨hmem, or_assoc.mpr hsearch, ?_⟩
            injection honly with hp
            rw [hp]
  · have hall : ∀ a ∈ agents,
        (matchesSearch "" a && matchesPrimitive .all a) = true := by
      intro a _
      have hname : jsIncludes (jsToLower (a.name.getD "")) (jsToLower "") = true :=
        containsList_nil _
      simp [matchesSearch, matchesPrimitive, hname]
    exact List.filter_eq_self.mpr hall

/-- C9 witness: a concrete one-agent list survives the empty-query All
    filter unchanged. -/
theorem claim_C9_witness :
    filteredAgents [⟨"summarizer", some "Text Summarizer", some "Summaries",
        .transform, some ["text"]⟩] "" .all =
      [⟨"summarizer", some "Text Summarizer", some "Summaries",
        .transform, some ["text"]⟩] :=
  (claim_C9_filteredAgents_correct
      [⟨"summarizer", some "Text Summarizer", some "Summaries",
        .transform, some ["text"]⟩] "" .all).2.2

/-- C10: a signed-in submission with a blank required field, or with a
    schema textarea that fails to parse as JSON, ends in an error status
    with a descriptive message and issues no gateway request. -/
theorem claim_C10_invalid_form_no_request (gatewayUrl : String)
    (num : String → JsNum) (parse : String → Option Json)
    (token : Option String) (f : UploadForm) (resp : RegisterResponse)
    (h : ¬ missingFields f = [] ∨
         parse (jsonOrEmptyObj f.inputSchema) = none ∨
         parse (jsonOrEmptyObj f.outputSchema) = none) :
    (handleSubmit gatewayUrl num parse true token f resp).requests = [] ∧
    (handleSubmit gatewayUrl num parse true token f resp).status = .error ∧
    (¬ missingFields f = [] →
      (handleSubmit gatewayUrl num parse true token f resp).statusMessage =
        "Please fill all required fields." ∧
      (handleSubmit gatewayUrl num parse true token f resp).fieldErrors =
        missingFields f) ∧
    (missingFields f = [] →
      (handleSubmit gatewayUrl num parse true token f resp).statusMessage =
        "Input/Output schema must be valid JSON.") := by
  by_cases hm : missingFields f = []
  · have hparse : parse (jsonOrEmptyObj f.inputSchema) = none ∨
        parse (jsonOrEmptyObj f.outputSchema) = none := by
      rcases h with hmiss | hrest
      · exact absurd hm hmiss
      · exact hrest
    cases hin : parse (jsonOrEmptyObj f.inputSchema) with
    | none => simp [handleSubmit, hm, hin]
    | some pin =>
        cases hout : parse (jsonOrEmptyObj f.outputSchema) with
        | none => simp [handleSubmit, hm, hin, hout]
        | some pout =>
            rcases hparse with hbad | hbad

            · exact absurd hin (by simp [hbad])
            · exact absurd hout (by simp [hbad])
  · have hne : (missingFields f).isEmpty = false := by
      cases hml : missingFields f with
      | nil => exact absurd hml hm
      | cons a t => rfl
    simp [handleSubmit, hne, hm]

/-- C10 witness: a form with a blank Agent ID produces the error banner and
    no request. -/
theorem claim_C10_witness :
    (handleSubmit "http://localhost:4280" (fun _ => JsNum.nan)
        (fun _ => some (Json.obj [])) true none
        { demoForm with agentId := "" } demoResp).requests = [] ∧
    (handleSubmit "http://localhost:4280" (fun _ => JsNum.nan)
        (fun _ => some (Json.obj [])) true none
        { demoForm with agentId := "" } demoResp).status = .error := by
  have h := claim_C10_invalid_form_no_request "http://localhost:4280"
    (fun _ => JsNum.nan) (fun _ => some (Json.obj [])) none
    { demoForm with agentId := "" } demoResp (Or.inl (by decide))
  exact ⟨h.1, h.2.1⟩

end FreeAgents
